import Mathlib

/-!
Verification of the finance-tracker chart/projection core (`src/App.tsx`).

The TypeScript source is shallowly embedded: JavaScript numbers are modelled
as rationals (`ℚ`); a JavaScript division whose result is not a finite number
(NaN or ±Infinity, arising only from a zero denominator here) is modelled as
`none : Option ℚ`.  The ambient current calendar year
(`new Date().getFullYear()`) is passed as an explicit parameter `cy`.
-/

namespace FinanceTracker

/-- One projected point: `{year: number; value: number}` from `projectGrowth`. -/
structure Point where
  year : ℤ
  value : ℚ
deriving DecidableEq, Repr

/-- The loop body of `projectGrowth` (src/App.tsx lines 30–38), fuel-indexed:
`fuel` counts the remaining iterations, `y` is the loop counter, `v` the
accumulator.  At each iteration the source does
`if (y>0) v = (v + yearlyAdd) * (1 + rate)` and then pushes
`{year: currentYear + y, value: v}`. -/
def projectGrowthGo (yearlyAdd rate : ℚ) (cy : ℤ) : ℕ → ℕ → ℚ → List Point
  | 0, _, _ => []
  | fuel + 1, y, v =>
    let v2 := if y > 0 then (v + yearlyAdd) * (1 + rate) else v
    ⟨cy + y, v2⟩ :: projectGrowthGo yearlyAdd rate cy fuel (y + 1) v2

/-- Function `projectGrowth(start, yearlyAdd, years, rate)` from src/App.tsx
lines 30–38: the loop runs for `y = 0 .. years`, i.e. `years + 1` iterations. -/
def projectGrowth (start yearlyAdd : ℚ) (years : ℕ) (rate : ℚ) (cy : ℤ) :
    List Point :=
  projectGrowthGo yearlyAdd rate cy (years + 1) 0 start

/-- Closed form of the accumulator: the value after `y` compounding steps. -/
def growthValue (start yearlyAdd rate : ℚ) : ℕ → ℚ
  | 0 => start
  | y + 1 => (growthValue start yearlyAdd rate y + yearlyAdd) * (1 + rate)

lemma projectGrowthGo_eq_map (yearlyAdd rate : ℚ) (cy : ℤ) (start : ℚ) :
    ∀ (fuel y : ℕ),
      projectGrowthGo yearlyAdd rate cy fuel (y + 1)
          (growthValue start yearlyAdd rate y) =
        (List.range fuel).map
          (fun j => ⟨cy + (y + 1 + j : ℕ), growthValue start yearlyAdd rate (y + 1 + j)⟩) := by
  intro fuel
  induction fuel with
  | zero => intro y; simp [projectGrowthGo]
  | succ n ih =>
    intro y
    rw [List.range_succ_eq_map]
    simp only [projectGrowthGo, List.map_cons, List.map_map]
    rw [List.cons_eq_cons]
    refine ⟨by simp [growthValue], ?_⟩
    have h := ih (y + 1)
    rw [show growthValue start yearlyAdd rate (y + 1)
          = (growthValue start yearlyAdd rate y + yearlyAdd) * (1 + rate) from rfl] at h
    rw [show (if y + 1 > 0 then (growthValue start yearlyAdd rate y + yearlyAdd) * (1 + rate)
          else growthValue start yearlyAdd rate y)
        = (growthValue start yearlyAdd rate y + yearlyAdd) * (1 + rate) by simp]
    rw [h]
    apply List.map_congr_left
    intro j _
    simp only [Function.comp_apply, Nat.succ_eq_add_one]
    have hj : y + 1 + 1 + j = y + 1 + (j + 1) := by omega
    rw [hj]

/-- The projection in closed form: point `y` is
`⟨cy + y, growthValue start yearlyAdd rate y⟩`. -/
lemma projectGrowth_eq_map (start yearlyAdd : ℚ) (years : ℕ) (rate : ℚ) (cy : ℤ) :
    projectGrowth start yearlyAdd years rate cy =
      (List.range (years + 1)).map
        (fun y => ⟨cy + (y : ℕ), growthValue start yearlyAdd rate y⟩) := by
  unfold projectGrowth
  rw [List.range_succ_eq_map]
  simp only [projectGrowthGo, List.map_cons, List.map_map]
  rw [List.cons_eq_cons]
  refine ⟨by simp [growthValue], ?_⟩
  have h := projectGrowthGo_eq_map yearlyAdd rate cy start years 0
  rw [show growthValue start yearlyAdd rate 0 = start from rfl] at h
  rw [show (if 0 > 0 then (start + yearlyAdd) * (1 + rate) else start) = start by simp]
  rw [h]
  apply List.map_congr_left
  intro j _
  simp only [Function.comp_apply, Nat.succ_eq_add_one]
  have hj : 0 + 1 + j = j + 1 := by omega
  rw [hj]

lemma projectGrowth_length (start yearlyAdd : ℚ) (years : ℕ) (rate : ℚ) (cy : ℤ) :
    (projectGrowth start yearlyAdd years rate cy).length = years + 1 := by
  rw [projectGrowth_eq_map]; simp

lemma projectGrowth_getElem? (start yearlyAdd : ℚ) (years : ℕ) (rate : ℚ) (cy : ℤ)
    (y : ℕ) (hy : y ≤ years) :
    (projectGrowth start yearlyAdd years rate cy)[y]? =
      some ⟨cy + (y : ℕ), growthValue start yearlyAdd rate y⟩ := by
  rw [projectGrowth_eq_map, List.getElem?_map, List.getElem?_range (by omega)]
  rfl

lemma growthValue_pos (start yearlyAdd rate : ℚ) (hs : 0 < start)
    (ha : 0 ≤ yearlyAdd) (hr : 0 ≤ rate) :
    ∀ y : ℕ, 0 < growthValue start yearlyAdd rate y := by
  intro y
  induction y with
  | zero => exact hs
  | succ z ih =>
    show 0 < (growthValue start yearlyAdd rate z + yearlyAdd) * (1 + rate)
    nlinarith

/-- C1: `projectGrowth(startValue, periodicContribution, horizonPeriods,
annualRate)` returns exactly `horizonPeriods + 1` points indexed
`0..horizonPeriods`; point 0 has `value = startValue` and
`period = currentYear`; and for every `1 ≤ y ≤ horizonPeriods`,
`value_y = (value_{y-1} + periodicContribution) * (1 + annualRate)` and
`period_y = currentYear + y`. -/
theorem C1_projectGrowth_shape (start yearlyAdd rate : ℚ) (cy : ℤ) (years : ℕ) :
    (projectGrowth start yearlyAdd years rate cy).length = years + 1 ∧
    (projectGrowth start yearlyAdd years rate cy)[0]? = some ⟨cy, start⟩ ∧
    ∀ y : ℕ, 1 ≤ y → y ≤ years →
      (projectGrowth start yearlyAdd years rate cy)[y]? =
        some ⟨cy + (y : ℕ),
          ((((projectGrowth start yearlyAdd years rate cy)[y - 1]?).getD (⟨0, 0⟩ : Point)).value
            + yearlyAdd) * (1 + rate)⟩ := by
  refine ⟨projectGrowth_length .., ?_, ?_⟩
  · rw [projectGrowth_getElem? start yearlyAdd years rate cy 0 (Nat.zero_le _)]
    simp [growthValue]
  · intro y h1 h2
    obtain ⟨z, rfl⟩ : ∃ z, y = z + 1 := ⟨y - 1, by omega⟩
    rw [projectGrowth_getElem? start yearlyAdd years rate cy (z + 1) h2,
      show z + 1 - 1 = z from rfl,
      projectGrowth_getElem? start yearlyAdd years rate cy z (by omega)]
    simp [growthValue]

/-- Witness for C1 at `start = 1000`, `yearlyAdd = 100`, `rate = 1/10`,
`cy = 2025`, `years = 2`, `y = 2`. -/
theorem C1_projectGrowth_shape_witness :
    (projectGrowth 1000 100 2 (1/10) 2025)[2]? =
      some ⟨2025 + (2 : ℕ),
        ((((projectGrowth 1000 100 2 (1/10) 2025)[2 - 1]?).getD (⟨0, 0⟩ : Point)).value
          + 100) * (1 + 1/10)⟩ :=
  (C1_projectGrowth_shape 1000 100 (1/10) 2025 2).2.2 2 (by norm_num) (by norm_num)

/-- C8 as stated is false: with `startValue = 0`, `periodicContribution = 0`
and `annualRate = 1/20 > 0`, every projected value is `0`, so the sequence is
not strictly increasing at `y = 1`. -/
theorem C8_counterexample :
    (0 : ℚ) < 1/20 ∧ (0 : ℚ) ≤ 0 ∧
    ¬ ((((projectGrowth 0 0 1 (1/20) 2025)[1]?).getD (⟨0, 0⟩ : Point)).value >
        (((projectGrowth 0 0 1 (1/20) 2025)[0]?).getD (⟨0, 0⟩ : Point)).value) := by
  refine ⟨by norm_num, le_refl 0, ?_⟩
  have h1 := projectGrowth_getElem? 0 0 1 (1/20) 2025 1 (by omega)
  have h0 := projectGrowth_getElem? 0 0 1 (1/20) 2025 0 (by omega)
  rw [h1, h0]
  simp [growthValue]

/-- C8 (amended): for positive `startValue`, non-negative contribution and
positive rate, the projected values are strictly increasing; and
`projectGrowth 1000 0 10 (1/20) cy` has final value exactly
`1000 * (21/20)^10 ≈ 1628.89`. -/
theorem C8_growth_monotone (start yearlyAdd rate : ℚ) (hs : 0 < start)
    (ha : 0 ≤ yearlyAdd) (hr : 0 < rate) (years : ℕ) (cy : ℤ) :
    (∀ y : ℕ, 1 ≤ y → y ≤ years →
      (((projectGrowth start yearlyAdd years rate cy)[y]?).getD (⟨0, 0⟩ : Point)).value >
        (((projectGrowth start yearlyAdd years rate cy)[y - 1]?).getD (⟨0, 0⟩ : Point)).value) ∧
    (((projectGrowth 1000 0 10 (1/20) cy)[10]?).getD (⟨0, 0⟩ : Point)).value
        = 1000 * (21/20) ^ 10 ∧
    (162889 : ℚ)/100 < 1000 * (21/20 : ℚ) ^ 10 ∧
    1000 * (21/20 : ℚ) ^ 10 < (162890 : ℚ)/100 := by
  refine ⟨?_, ?_, by norm_num, by norm_num⟩
  · intro y h1 h2
    obtain ⟨z, rfl⟩ : ∃ z, y = z + 1 := ⟨y - 1, by omega⟩
    rw [projectGrowth_getElem? start yearlyAdd years rate cy (z + 1) h2,
      show z + 1 - 1 = z from rfl,
      projectGrowth_getElem? start yearlyAdd years rate cy z (by omega)]
    have hz := growthValue_pos start yearlyAdd rate hs ha (le_of_lt hr) z
    show (growthValue start yearlyAdd rate z + yearlyAdd) * (1 + rate) >
      growthValue start yearlyAdd rate z
    nlinarith
  · rw [projectGrowth_getElem? 1000 0 10 (1/20) cy 10 (by omega)]
    show growthValue 1000 0 (1/20) 10 = 1000 * (21/20) ^ 10
    simp [growthValue]
    norm_num

/-- Witness for the amended C8 at `start = 1000`, `yearlyAdd = 0`,
`rate = 1/20`, `years = 1`, `y = 1`. -/
theorem C8_growth_monotone_witness :
    (((projectGrowth 1000 0 1 (1/20) 2025)[1]?).getD (⟨0, 0⟩ : Point)).value >
      (((projectGrowth 1000 0 1 (1/20) 2025)[0]?).getD (⟨0, 0⟩ : Point)).value :=
  (C8_growth_monotone 1000 0 (1/20) (by norm_num) (by norm_num) (by norm_num)
    1 2025).1 1 (by norm_num) (by norm_num)

/-! ## Chart geometry (src/App.tsx lines 41–79)

Surface constants from line 52: `const W=900, H=320, P=30`. -/

def W : ℚ := 900

def H : ℚ := 320

def P : ℚ := 30

/-- JavaScript division. A zero denominator yields a non-finite number
(`0/0` is `NaN`, otherwise `±Infinity`); non-finite numbers are modelled
as `none`. -/
def jdiv (a b : ℚ) : Option ℚ := if b = 0 then none else some (a / b)

/-- Source: `const x = (i)=> P + (i/(years.length-1))*(W-2*P)` (line 54), for a
series of `N = years.length` points.  When `N = 1` the source divides by
zero with no guard. -/
def jsX (N : ℕ) (i : ℚ) : Option ℚ :=
  (jdiv i ((N : ℚ) - 1)).map (fun t => P + t * (W - 2 * P))

/-- JavaScript `a || 1` for a finite number `a`: `0` is falsy. -/
def jsOr1 (a : ℚ) : ℚ := if a = 0 then 1 else a

/-- Source: `const min = 0` (line 50). -/
def minValue : ℚ := 0

/-- Source: `const max = Math.max(...all) * 1.05 || 1` (line 51), where `all` is the
flattened list of all values of all series.  `Math.max` of an empty spread
is `-Infinity` (non-finite, modelled as `none`); `-Infinity` is truthy, so
`|| 1` does not rescue the empty case. -/
def chartMax (all : List ℚ) : Option ℚ :=
  all.max?.map (fun m => jsOr1 (m * (21/20)))

/-- Source: `const y = (v)=> H-P - (v-min)/(max-min||1)*(H-2*P)` (line 55). -/
def yMap (maxV v : ℚ) : ℚ :=
  H - P - (v - minValue) / jsOr1 (maxV - minValue) * (H - 2 * P)

/-- JavaScript `Math.round`: rounds half towards positive infinity. -/
def jround (q : ℚ) : ℤ := ⌊q + 1/2⌋

/-- The index computation of `handleMove` (lines 62–73): clamp the pointer
x-position `mx` to the inner band `[P, W-P]`, normalise, and round
`t * (years.length - 1)`. -/
def hoverIndex (N : ℕ) (mx : ℚ) : ℤ :=
  let innerLeft := P
  let innerRight := W - P
  let clamped := max innerLeft (min innerRight mx)
  let t := (clamped - innerLeft) / (innerRight - innerLeft)
  jround (t * ((N : ℚ) - 1))

/-- JavaScript array indexing `l[i]`: any out-of-range index (negative
included) gives `undefined`, modelled as `none`. -/
def jsGet {α : Type} (l : List α) (i : ℤ) : Option α :=
  if 0 ≤ i then l[i.toNat]? else none

/-- One input series of the chart:
`{name:string; color:string; points:{year;value}[]}`. -/
structure Series where
  name : String
  color : String
  points : List Point
deriving DecidableEq, Repr

/-- How a render attempt fails.  `runtimeTypeError` models a thrown
`TypeError` (reading a property of `undefined`); `validationFailure` is the
outcome the spec asks for on malformed input — no code path of the source
produces it. -/
inductive RenderError
  | runtimeTypeError
  | validationFailure
deriving DecidableEq, Repr

/-- The observable output of one render of `AreaChart`: the line-path
coordinates per series (x may be non-finite), the hover markers and tooltip
rows (present only while hovering), and the legend rows
`(name, points[legendIndex].value)`.  The filled-area paths reuse the same
coordinates as the line paths and are not repeated here; the grid and the
x-axis labels touch no per-series data. -/
structure RenderOutput where
  linePaths : List (List (Option ℚ × ℚ))
  hoverMarkers : Option (List (Option ℚ × ℚ))
  tooltipRows : Option (List (String × ℚ))
  legendRows : List (String × ℚ)
deriving DecidableEq, Repr

/-- Evaluate `f` over a list, throwing a `TypeError` at the first element
where `f` hits `undefined` — the shape of `s.points[i].value` lookups in the
JSX. -/
def mapOrThrow {α β : Type} (f : α → Option β) :
    List α → Except RenderError (List β)
  | [] => .ok []
  | a :: as =>
    match f a with
    | none => .error .runtimeTypeError
    | some b => (mapOrThrow f as).map (fun bs => b :: bs)

/-- The hover layer (lines 110–121 and 129–154): when `hoverI` is set, a
marker `(x(hoverI), y(points[hoverI].value))` and a tooltip row
`(name, points[hoverI].value)` per series; `points[hoverI]` being
`undefined` throws. -/
def hoverLayer (series : List Series) (N : ℕ) (maxV : ℚ) :
    Option ℤ →
      Except RenderError (Option (List (Option ℚ × ℚ)) × Option (List (String × ℚ)))
  | none => .ok (none, none)
  | some i =>
    (mapOrThrow (fun s => (jsGet s.points i).map
        (fun p => ((jsX N (i : ℚ), yMap maxV p.value), (s.name, p.value)))) series).map
      (fun l => (some (l.map Prod.fst), some (l.map Prod.snd)))

/-- The legend rows (lines 156–165): `(s.name, s.points[legendIndex].value)`
per series; an out-of-range `legendIndex` throws. -/
def legendFor (series : List Series) (legendIndex : ℤ) :
    Except RenderError (List (String × ℚ)) :=
  mapOrThrow (fun s => (jsGet s.points legendIndex).map
    (fun p => (s.name, p.value))) series

/-- One render of `AreaChart` (lines 41–167).  The component body starts
with `series[0].points` (line 48), which throws on an empty series list;
there is no input validation.  `N = years.length`,
`legendIndex = hoverI ?? (years.length - 1)` (line 79).  When every series
has an empty point list, `chartMax` is `none` (JS: `-Infinity`); the scale
is then never applied to any point, so the `getD 1` surrogate is never
observable. -/
def renderChart (series : List Series) (hoverI : Option ℤ) :
    Except RenderError RenderOutput :=
  match series[0]? with
  | none => .error .runtimeTypeError
  | some s0 =>
    let N := s0.points.length
    let all := series.flatMap (fun s => s.points.map (fun p => p.value))
    let maxV := (chartMax all).getD 1
    let linePaths := series.map
      (fun s => s.points.mapIdx (fun i p => (jsX N (i : ℚ), yMap maxV p.value)))
    match hoverLayer series N maxV hoverI with
    | .error e => .error e
    | .ok (markers, tooltip) =>
      match legendFor series (hoverI.getD ((N : ℤ) - 1)) with
      | .error e => .error e
      | .ok legendRows => .ok ⟨linePaths, markers, tooltip, legendRows⟩

/-! ## The hover state machine of `AreaChart` -/

/-- Events hitting the chart component: `onMouseMove` with a pointer
x-position, `onMouseLeave`, and a re-render with a new `series` prop. -/
inductive ChartEvent
  | move (mx : ℚ)
  | leave
  | seriesChange (newSeries : List Series)

/-- The state a mounted `AreaChart` carries: the current `series` prop and
the `hoverI` `useState` cell (line 60). -/
structure ChartState where
  series : List Series
  hoverI : Option ℤ
deriving DecidableEq

/-- One step of the component.  Second component: the value passed to
`onHoverIndexChange` (`none` = the callback is not invoked).
`handleMove` (lines 62–73) sets and reports the rounded index;
`handleLeave` (lines 74–77) sets and reports `null`.  A change of the
`series` prop only re-renders: `useState` persists across re-renders and no
`useEffect` or `key` remount resets `hoverI`, so the hover state is kept
and nothing is reported. -/
def chartStep (s : ChartState) : ChartEvent → ChartState × Option (Option ℤ)
  | .move mx =>
    let N := ((s.series[0]?).map (fun s0 => s0.points.length)).getD 0
    let idx := hoverIndex N mx
    (⟨s.series, some idx⟩, some (some idx))
  | .leave => (⟨s.series, none⟩, some none)
  | .seriesChange new => (⟨new, s.hoverI⟩, none)

/-! ## Geometry lemmas -/

lemma jsX_of_two_le (N : ℕ) (i : ℚ) (hN : 2 ≤ N) :
    jsX N i = some (P + i / ((N : ℚ) - 1) * (W - 2 * P)) := by
  have hNq : (2 : ℚ) ≤ (N : ℚ) := by exact_mod_cast hN
  have h : ((N : ℚ) - 1) ≠ 0 := by linarith
  simp [jsX, jdiv, h]

lemma jsOr1_ne_zero (a : ℚ) : jsOr1 a ≠ 0 := by
  unfold jsOr1
  split
  · norm_num
  · assumption

lemma jsOr1_eq_self (a : ℚ) (h : a ≠ 0) : jsOr1 a = a := if_neg h

lemma hoverIndex_mem_range (N : ℕ) (mx : ℚ) (hN : 2 ≤ N) :
    0 ≤ hoverIndex N mx ∧ hoverIndex N mx ≤ (N : ℤ) - 1 := by
  have hNq : (2 : ℚ) ≤ (N : ℚ) := by exact_mod_cast hN
  simp only [hoverIndex, jround]
  set c := max P (min (W - P) mx) with hc
  have h1 : P ≤ c := le_max_left _ _
  have h2 : c ≤ W - P := by
    apply max_le
    · norm_num [W, P]
    · exact min_le_left _ _
  set t := (c - P) / (W - P - P) with ht
  have hden : (0 : ℚ) < W - P - P := by norm_num [W, P]
  have ht0 : 0 ≤ t := div_nonneg (by linarith) (le_of_lt hden)
  have ht1 : t ≤ 1 := by
    rw [ht, div_le_one hden]
    linarith
  have hN1 : (0 : ℚ) ≤ (N : ℚ) - 1 := by linarith
  constructor
  · rw [Int.le_floor]
    push_cast
    nlinarith
  · have hlt : ⌊t * ((N : ℚ) - 1) + 1/2⌋ < (N : ℤ) := by
      rw [Int.floor_lt]
      push_cast
      nlinarith
    omega

/-- C4 as stated is false for `N = 1`: the source has no guard, so
`x(0)` evaluates `0/0` (NaN) instead of `P`. -/
theorem C4_counterexample : jsX 1 0 = none ∧ jsX 1 0 ≠ some P := by
  have h : jsX 1 0 = none := by simp [jsX, jdiv]
  rw [h]
  exact ⟨rfl, fun hc => Option.noConfusion hc⟩

/-- C4 (amended): for `N > 1`, `x(i) = P + (i/(N-1)) * (W-2P)` with no
division by zero; for `N = 1` the code divides `0/0`, so `x(0)` is NaN
(non-finite), not `P`. -/
theorem C4_x_mapping_amended :
    (∀ (N : ℕ) (i : ℚ), 2 ≤ N →
      jsX N i = some (P + i / ((N : ℚ) - 1) * (W - 2 * P))) ∧
    jsX 1 0 = none := by
  refine ⟨fun N i hN => jsX_of_two_le N i hN, by simp [jsX, jdiv]⟩

/-- Witness for the amended C4 at `N = 3`, `i = 1`. -/
theorem C4_x_mapping_amended_witness :
    jsX 3 1 = some (P + 1 / (((3 : ℕ) : ℚ) - 1) * (W - 2 * P)) :=
  C4_x_mapping_amended.1 3 1 (by norm_num)

/-- C5: the round trip of the hover mapping.  For `N > 1` and
`0 ≤ k ≤ N-1`, the pixel `x(k)` is a finite number, and feeding it through
the pointer-move computation (clamp to `[P, W-P]`, normalise, round
`t * (N-1)`) recovers exactly `k`. -/
theorem C5_hover_roundtrip (N k : ℕ) (hN : 2 ≤ N) (hk : k ≤ N - 1) :
    jsX N (k : ℚ) = some (P + (k : ℚ) / ((N : ℚ) - 1) * (W - 2 * P)) ∧
    hoverIndex N (P + (k : ℚ) / ((N : ℚ) - 1) * (W - 2 * P)) = (k : ℤ) := by
  have hNq : (2 : ℚ) ≤ (N : ℚ) := by exact_mod_cast hN
  have hN1 : (0 : ℚ) < (N : ℚ) - 1 := by linarith
  have hkq : (k : ℚ) ≤ (N : ℚ) - 1 := by
    have hk2 : (k : ℤ) ≤ (N : ℤ) - 1 := by omega
    exact_mod_cast hk2
  refine ⟨jsX_of_two_le N (k : ℚ) hN, ?_⟩
  simp only [hoverIndex, jround]
  have hfrac0 : 0 ≤ (k : ℚ) / ((N : ℚ) - 1) := by positivity
  have hfrac1 : (k : ℚ) / ((N : ℚ) - 1) ≤ 1 := by
    rw [div_le_one hN1]
    exact hkq
  have hWP : (0 : ℚ) ≤ W - 2 * P := by norm_num [W, P]
  have hx1 : P ≤ P + (k : ℚ) / ((N : ℚ) - 1) * (W - 2 * P) := by
    nlinarith [mul_nonneg hfrac0 hWP]
  have hx2 : P + (k : ℚ) / ((N : ℚ) - 1) * (W - 2 * P) ≤ W - P := by
    have := mul_le_of_le_one_left hWP hfrac1
    nlinarith [mul_le_mul_of_nonneg_right hfrac1 hWP]
  rw [min_eq_right hx2, max_eq_right hx1]
  have key : (P + (k : ℚ) / ((N : ℚ) - 1) * (W - 2 * P) - P) / (W - P - P)
      * ((N : ℚ) - 1) + 1/2 = (k : ℚ) + 1/2 := by
    have hne : ((N : ℚ) - 1) ≠ 0 := ne_of_gt hN1
    field_simp [W, P]
    ring
  rw [key, show ((k : ℚ) + 1/2) = ((k : ℤ) : ℚ) + 1/2 by push_cast; ring,
    Int.floor_int_add]
  norm_num

/-- Witness for C5 at `N = 3`, `k = 2`. -/
theorem C5_hover_roundtrip_witness :
    jsX 3 ((2 : ℕ) : ℚ) =
      some (P + ((2 : ℕ) : ℚ) / (((3 : ℕ) : ℚ) - 1) * (W - 2 * P)) ∧
    hoverIndex 3 (P + ((2 : ℕ) : ℚ) / (((3 : ℕ) : ℚ) - 1) * (W - 2 * P))
      = ((2 : ℕ) : ℤ) :=
  C5_hover_roundtrip 3 2 (by norm_num) (by norm_num)

/-- C10: for every pointer x-position and every `N ≥ 2`, the index computed
by `handleMove` lies in `0..N-1`, so `points[hoverI]` is in bounds for every
series of length `N`. -/
theorem C10_hover_index_in_bounds (N : ℕ) (mx : ℚ) (hN : 2 ≤ N) :
    (0 ≤ hoverIndex N mx ∧ hoverIndex N mx ≤ (N : ℤ) - 1) ∧
    ∀ pts : List Point, pts.length = N →
      (jsGet pts (hoverIndex N mx)).isSome := by
  obtain ⟨h0, h1⟩ := hoverIndex_mem_range N mx hN
  refine ⟨⟨h0, h1⟩, fun pts hlen => ?_⟩
  rw [jsGet, if_pos h0]
  have hlt : (hoverIndex N mx).toNat < pts.length := by omega
  simp [List.getElem?_eq_getElem hlt]

/-- Witness for C10 at `N = 2`, `mx = 123`, on a two-point series. -/
theorem C10_hover_index_in_bounds_witness :
    (0 ≤ hoverIndex 2 123 ∧ hoverIndex 2 123 ≤ ((2 : ℕ) : ℤ) - 1) ∧
    (jsGet ([⟨2025, 5⟩, ⟨2026, 7⟩] : List Point) (hoverIndex 2 123)).isSome := by
  obtain ⟨hb, hin⟩ := C10_hover_index_in_bounds 2 123 (by norm_num)
  exact ⟨hb, hin [⟨2025, 5⟩, ⟨2026, 7⟩] rfl⟩

/-- C7: with `minValue = 0` and `maxValue` computed as
`Math.max(...all) * 1.05 || 1` over a series set with at least one point,
the computed maximum is non-zero (so the `|| 1` floor makes the denominator
total), and `y(minValue) = H-P` and `y(maxValue) = P` exactly. -/
theorem C7_y_scale (all : List ℚ) (M : ℚ) (h : chartMax all = some M) :
    M ≠ 0 ∧ yMap M minValue = H - P ∧ yMap M M = P := by
  obtain ⟨m, hm, hM⟩ := Option.map_eq_some'.mp h
  have hMne : M ≠ 0 := hM ▸ jsOr1_ne_zero _
  refine ⟨hMne, ?_, ?_⟩
  · simp [yMap, minValue]
  · unfold yMap minValue
    rw [sub_zero, jsOr1_eq_self M hMne, div_self hMne]
    ring

/-- Witness for C7 at `all = [0]` (all values zero): the computed max is
floored to `1`. -/
theorem C7_y_scale_witness :
    chartMax [0] = some 1 ∧
    ((1 : ℚ) ≠ 0 ∧ yMap 1 minValue = H - P ∧ yMap 1 1 = P) :=
  ⟨by norm_num [chartMax, jsOr1, List.max?],
   C7_y_scale [0] 1 (by norm_num [chartMax, jsOr1, List.max?])⟩

/-! ## Error behaviour of the renderer (C2) -/

lemma exceptMap_eq_error {ε α β : Type} (g : α → β) (x : Except ε α) (e : ε)
    (h : x.map g = Except.error e) : x = Except.error e := by
  cases x with
  | error e2 => simpa [Except.map] using h
  | ok a => simp [Except.map] at h

lemma mapOrThrow_error_eq {α β : Type} (f : α → Option β) :
    ∀ (l : List α) (e : RenderError),
      mapOrThrow f l = Except.error e → e = RenderError.runtimeTypeError := by
  intro l
  induction l with
  | nil => intro e h; simp [mapOrThrow] at h
  | cons a as ih =>
    intro e h
    unfold mapOrThrow at h
    cases hfa : f a with
    | none =>
      rw [hfa] at h
      injection h with h2
      exact h2.symm
    | some b =>
      rw [hfa] at h
      have := exceptMap_eq_error _ _ _ h
      exact ih e this

lemma hoverLayer_error_eq (series : List Series) (N : ℕ) (maxV : ℚ)
    (hoverI : Option ℤ) (e : RenderError)
    (h : hoverLayer series N maxV hoverI = Except.error e) :
    e = RenderError.runtimeTypeError := by
  cases hoverI with
  | none => simp [hoverLayer] at h
  | some i =>
    unfold hoverLayer at h
    exact mapOrThrow_error_eq _ series e (exceptMap_eq_error _ _ _ h)

/-- Every failing render fails with a runtime `TypeError`: `renderChart` has
no validation path. -/
lemma renderChart_error_eq (series : List Series) (hoverI : Option ℤ)
    (e : RenderError) (h : renderChart series hoverI = Except.error e) :
    e = RenderError.runtimeTypeError := by
  unfold renderChart at h
  cases h0 : series[0]? with
  | none =>
    rw [h0] at h
    injection h with h2
    exact h2.symm
  | some s0 =>
    rw [h0] at h
    simp only at h
    cases hh : hoverLayer series s0.points.length
        ((chartMax (series.flatMap fun s => s.points.map fun p => p.value)).getD 1)
        hoverI with
    | error e2 =>
      rw [hh] at h
      injection h with h2
      exact h2 ▸ hoverLayer_error_eq _ _ _ _ _ hh
    | ok mt =>
      rw [hh] at h
      obtain ⟨markers, tooltip⟩ := mt
      cases hl : legendFor series (hoverI.getD ((s0.points.length : ℤ) - 1)) with
      | error e2 =>
        rw [hl] at h
        injection h with h2
        exact h2 ▸ mapOrThrow_error_eq _ series e2 hl
      | ok rows => rw [hl] at h; exact absurd h (by simp)

/-- C2 as stated is false: on the malformed input of an empty series list,
the renderer does not report a validation failure before rendering — it
throws a runtime `TypeError` at `series[0].points`. -/
theorem C2_counterexample :
    renderChart [] none = Except.error RenderError.runtimeTypeError ∧
    RenderError.runtimeTypeError ≠ RenderError.validationFailure :=
  ⟨rfl, fun h => RenderError.noConfusion h⟩

/-- C2 (amended): the renderer performs no input validation.  No input ever
produces a validation failure; an empty series list always throws a runtime
`TypeError`; and a series shorter than the first one throws a runtime
`TypeError` while drawing the legend. -/
theorem C2_no_validation_amended :
    (∀ (series : List Series) (hoverI : Option ℤ),
      renderChart series hoverI ≠ Except.error RenderError.validationFailure) ∧
    (∀ hoverI : Option ℤ,
      renderChart [] hoverI = Except.error RenderError.runtimeTypeError) ∧
    renderChart [⟨"A", "c", [⟨2025, 0⟩, ⟨2026, 1⟩]⟩, ⟨"B", "c", [⟨2025, 0⟩]⟩] none
      = Except.error RenderError.runtimeTypeError := by
  refine ⟨?_, fun _ => rfl, rfl⟩
  intro series hoverI h
  exact absurd (renderChart_error_eq series hoverI _ h)
    (fun hc => RenderError.noConfusion hc)

/-! ## Hover state across events (C3, C6) -/

/-- C3 as stated is false: from the reachable state `Hovering(1)` (reached
by a pointer-move at `mx = 870` over a two-point series), changing the
series set to a one-point series keeps `hoverI = 1` — a stale index that is
out of range for the new series — instead of resetting to `Idle`. -/
theorem C3_counterexample :
    (chartStep ⟨[⟨"A", "c", [⟨2025, 0⟩, ⟨2026, 1⟩]⟩], none⟩ (.move 870)).1.hoverI
      = some 1 ∧
    (chartStep (chartStep ⟨[⟨"A", "c", [⟨2025, 0⟩, ⟨2026, 1⟩]⟩], none⟩ (.move 870)).1
        (.seriesChange [⟨"A", "c", [⟨2025, 0⟩]⟩])).1.hoverI = some 1 ∧
    ¬ ((chartStep (chartStep ⟨[⟨"A", "c", [⟨2025, 0⟩, ⟨2026, 1⟩]⟩], none⟩ (.move 870)).1
        (.seriesChange [⟨"A", "c", [⟨2025, 0⟩]⟩])).1.hoverI = none) := by
  have hmove : hoverIndex 2 870 = 1 := by norm_num [hoverIndex, jround, W, P]
  have h1 : (chartStep ⟨[⟨"A", "c", [⟨2025, 0⟩, ⟨2026, 1⟩]⟩], none⟩
      (.move 870)).1.hoverI = some 1 := by
    show some (hoverIndex 2 870) = some 1
    rw [hmove]
  have h2 : (chartStep (chartStep ⟨[⟨"A", "c", [⟨2025, 0⟩, ⟨2026, 1⟩]⟩], none⟩
      (.move 870)).1 (.seriesChange [⟨"A", "c", [⟨2025, 0⟩]⟩])).1.hoverI
      = some 1 := h1
  exact ⟨h1, h2, by rw [h2]; exact fun hc => Option.noConfusion hc⟩

/-- C3 (amended): a change of the series set never touches the hover state
and emits no notification; `hoverI` is reset only by pointer-leave.  A stale
index can therefore survive a series change. -/
theorem C3_series_change_amended :
    ∀ (s : ChartState) (new : List Series),
      (chartStep s (.seriesChange new)).1 = ⟨new, s.hoverI⟩ ∧
      (chartStep s (.seriesChange new)).2 = none :=
  fun _ _ => ⟨rfl, rfl⟩

lemma mapOrThrow_eq_map {α β : Type} (f : α → Option β) (g : α → β) :
    ∀ l : List α, (∀ a ∈ l, f a = some (g a)) →
      mapOrThrow f l = Except.ok (l.map g) := by
  intro l
  induction l with
  | nil => intro _; rfl
  | cons a as ih =>
    intro hall
    unfold mapOrThrow
    rw [hall a (List.mem_cons_self a as),
      ih (fun x hx => hall x (List.mem_cons_of_mem a hx))]
    rfl

/-- C6: a pointer-leave always resets the hover state to `none` and notifies
the observer with `none`; rendering in the resulting idle state succeeds and
the legend shows, for every series, the value at
`effectiveIndex = N - 1` — the last point. -/
theorem C6_leave_resets (s : ChartState) (series : List Series) (N : ℕ)
    (hN : 0 < N) (hlen : ∀ sr ∈ series, sr.points.length = N)
    (hne : series ≠ []) :
    chartStep s ChartEvent.leave = (⟨s.series, none⟩, some none) ∧
    ∃ out : RenderOutput, renderChart series none = Except.ok out ∧
      out.hoverMarkers = none ∧ out.tooltipRows = none ∧
      out.legendRows = series.map
        (fun sr => (sr.name, ((sr.points[N - 1]?).getD (⟨0, 0⟩ : Point)).value)) := by
  refine ⟨rfl, ?_⟩
  cases series with
  | nil => exact absurd rfl hne
  | cons s0 rest =>
    have hN0 : s0.points.length = N := hlen s0 (List.mem_cons_self _ _)
    have hf : ∀ sr ∈ s0 :: rest,
        (jsGet sr.points ((N : ℤ) - 1)).map (fun p => (sr.name, p.value))
          = some (sr.name, ((sr.points[N - 1]?).getD (⟨0, 0⟩ : Point)).value) := by
      intro sr hsr
      have hlt : N - 1 < sr.points.length := by rw [hlen sr hsr]; omega
      have hidx : jsGet sr.points ((N : ℤ) - 1) = sr.points[N - 1]? := by
        rw [jsGet, if_pos (by omega : (0 : ℤ) ≤ (N : ℤ) - 1)]
        congr 1
        omega
      rw [hidx, List.getElem?_eq_getElem hlt]
      simp
    have hleg : legendFor (s0 :: rest) ((s0.points.length : ℤ) - 1)
        = Except.ok ((s0 :: rest).map
            (fun sr => (sr.name, ((sr.points[N - 1]?).getD (⟨0, 0⟩ : Point)).value))) := by
      rw [hN0]
      exact mapOrThrow_eq_map _ _ _ hf
    unfold renderChart
    simp only [List.getElem?_cons_zero, Option.getD_none]
    rw [hleg]
    exact ⟨_, rfl, rfl, rfl, rfl⟩

/-- Witness for C6 on a concrete hovering state and a one-series set with
two points. -/
theorem C6_leave_resets_witness :
    chartStep ⟨[⟨"A", "c", [⟨2025, 5⟩, ⟨2026, 7⟩]⟩], some 1⟩ ChartEvent.leave
      = (⟨[⟨"A", "c", [⟨2025, 5⟩, ⟨2026, 7⟩]⟩], none⟩, some none) ∧
    ∃ out : RenderOutput,
      renderChart [⟨"A", "c", [⟨2025, 5⟩, ⟨2026, 7⟩]⟩] none = Except.ok out ∧
      out.hoverMarkers = none ∧ out.tooltipRows = none ∧
      out.legendRows = ([⟨"A", "c", [⟨2025, 5⟩, ⟨2026, 7⟩]⟩] : List Series).map
        (fun sr => (sr.name, ((sr.points[2 - 1]?).getD (⟨0, 0⟩ : Point)).value)) :=
  C6_leave_resets ⟨[⟨"A", "c", [⟨2025, 5⟩, ⟨2026, 7⟩]⟩], some 1⟩
    [⟨"A", "c", [⟨2025, 5⟩, ⟨2026, 7⟩]⟩] 2 (by norm_num)
    (by intro sr hsr; simp only [List.mem_singleton] at hsr; subst hsr; rfl)
    (by simp)

/-! ## Application state: transactions and accounts (src/App.tsx lines
181–233) -/

/-- JavaScript `String.prototype.trim`: strip leading and trailing
whitespace. -/
def jsTrim (s : String) : String :=
  ⟨((s.data.dropWhile Char.isWhitespace).reverse.dropWhile Char.isWhitespace).reverse⟩

/-- The `Transaction` record (src/App.tsx lines 5–12). -/
structure Transaction where
  id : String
  date : String
  description : String
  category : String
  amount : ℚ
  accountId : String
deriving DecidableEq, Repr

/-- Values of `Account.type` (src/App.tsx line 17). -/
inductive AccountType
  | Brokerage
  | Checking
  | Savings
  | Credit
deriving DecidableEq, Repr

/-- The `Account` record (src/App.tsx lines 14–19). -/
structure Account where
  id : String
  name : String
  type : AccountType
  balance : ℚ
deriving DecidableEq, Repr

/-- The two `useState` cells holding the data (lines 186–193). -/
structure AppState where
  transactions : List Transaction
  accounts : List Account
deriving DecidableEq, Repr

/-- Function `addTransaction` (lines 203–222).  `amt?` is the result of
`Number(newTx.amount)`, with `none` for NaN; the guard
`if (!newTx.desc.trim() || Number.isNaN(amt)) return;` leaves the state
unchanged.  Otherwise the new transaction (with a fresh `id`) is prepended
and `amt` is added to the balance of the matching account. -/
def addTransaction (st : AppState) (newId today desc category : String)
    (amt? : Option ℚ) (accountId : String) : AppState :=
  match amt? with
  | none => st
  | some amt =>
    if jsTrim desc = "" then st
    else
      { transactions :=
          ⟨newId, today, jsTrim desc,
            (if jsTrim category = "" then "General" else jsTrim category),
            amt, accountId⟩ :: st.transactions,
        accounts := st.accounts.map
          (fun a => if a.id = accountId then { a with balance := a.balance + amt }
                    else a) }

/-- Function `deleteTransaction` (lines 225–233): find the transaction, reverse its
balance impact on the matching account, and filter it out; an unknown id
leaves the state unchanged. -/
def deleteTransaction (st : AppState) (id : String) : AppState :=
  match st.transactions.find? (fun t => t.id == id) with
  | none => st
  | some tx =>
    { transactions := st.transactions.filter (fun t => t.id != id),
      accounts := st.accounts.map
        (fun a => if a.id = tx.accountId then { a with balance := a.balance - tx.amount }
                  else a) }

/-- C9: adding a transaction (non-empty trimmed description, numeric amount,
fresh id) and then deleting it restores the transaction list and every
account balance exactly. -/
theorem C9_add_delete_roundtrip (st : AppState)
    (newId today desc category : String) (amt : ℚ) (accountId : String)
    (hdesc : jsTrim desc ≠ "")
    (hfresh : ∀ t ∈ st.transactions, t.id ≠ newId) :
    deleteTransaction
      (addTransaction st newId today desc category (some amt) accountId) newId
      = st := by
  obtain ⟨txs, accs⟩ := st
  simp only [addTransaction]
  rw [if_neg hdesc]
  simp only [deleteTransaction]
  have hfind :
      (⟨newId, today, jsTrim desc,
          (if jsTrim category = "" then "General" else jsTrim category),
          amt, accountId⟩ :: txs).find? (fun t => t.id == newId)
        = some ⟨newId, today, jsTrim desc,
            (if jsTrim category = "" then "General" else jsTrim category),
            amt, accountId⟩ :=
    List.find?_cons_of_pos _ (by simp)
  rw [hfind]
  show (⟨(List.filter _ _), (List.map _ _)⟩ : AppState) = ⟨txs, accs⟩
  refine congrArg₂ AppState.mk ?_ ?_
  · rw [List.filter_cons_of_neg (by simp), List.filter_eq_self]
    intro t ht
    simpa using hfresh t ht
  · rw [List.map_map]
    have hpt : ∀ a : Account,
        ((fun a => if a.id = accountId then { a with balance := a.balance - amt }
            else a) ∘
         (fun a => if a.id = accountId then { a with balance := a.balance + amt }
            else a)) a = id a := by
      intro a
      by_cases h : a.id = accountId
      · simp [Function.comp, h]
        rw [← h]
      · simp [Function.comp, h]
    calc accs.map _ = accs.map id := List.map_congr_left (fun a _ => hpt a)
    _ = accs := List.map_id accs

/-- Witness for C9 on the initial application state, adding and deleting a
lunch expense on the Robinhood account. -/
theorem C9_add_delete_roundtrip_witness :
    deleteTransaction
      (addTransaction
        ⟨[⟨"t1", "2025-10-11", "Initial Balance", "Setup", 10000, "acc1"⟩,
          ⟨"t2", "2025-10-11", "Initial Balance", "Setup", 5000, "acc2"⟩],
         [⟨"acc1", "Robinhood", .Brokerage, 10000⟩,
          ⟨"acc2", "Chase", .Checking, 5000⟩]⟩
        "t3" "2025-10-12" "Lunch" "Food" (some (-12)) "acc1")
      "t3"
    = ⟨[⟨"t1", "2025-10-11", "Initial Balance", "Setup", 10000, "acc1"⟩,
        ⟨"t2", "2025-10-11", "Initial Balance", "Setup", 5000, "acc2"⟩],
       [⟨"acc1", "Robinhood", .Brokerage, 10000⟩,
        ⟨"acc2", "Chase", .Checking, 5000⟩]⟩ :=
  C9_add_delete_roundtrip _ "t3" "2025-10-12" "Lunch" "Food" (-12) "acc1"
    (by decide) (by decide)

end FinanceTracker
